import Mathlib

/-!
Verification of the simple-pubsub dispatcher (src/app.ts).

The development shallowly embeds the TypeScript source: events become an
inductive type whose `type` and `machineId` functions mirror the accessor
methods; the `Map<string, ISubscriber[]>` subscription table becomes an
association list with JS-Map `get`/`set`/`delete` semantics; the mutable
dispatcher object becomes explicit state passing; the unbounded `while`
loop of `publish` becomes a fuel-indexed recursion.  A subscriber's
`handle` call is modelled by a semantics function returning the effects the
call performed: its updated private state, the events it passed to
`publish`, the `subscribe`/`unsubscribe` calls it made, and whether it
threw.  The dispatcher wraps every invocation in `try { ... } catch {}`
(src/app.ts lines 137-141), so the `raised` flag has no influence on the
dispatcher, which is itself a verified fact below.
-/

namespace PubSub

/-- Events of the system: the four IEvent implementations of src/app.ts
(MachineSaleEvent, MachineRefillEvent, LowStockWarningEvent,
StockLevelOkEvent), with their constructor payloads. -/
inductive Event where
  | sale (sold : Int) (machineId : String)
  | refill (refillQty : Int) (machineId : String)
  | lowStock (machineId : String)
  | stockOk (machineId : String)
deriving DecidableEq, Repr

/-- Runtime type tag of an event, as returned by the `type()` methods. -/
def Event.type : Event → String
  | .sale _ _ => "sale"
  | .refill _ _ => "refill"
  | .lowStock _ => "low-stock"
  | .stockOk _ => "stock-ok"

/-- Machine id carried by an event (`machineId()` methods). -/
def Event.machineId : Event → String
  | .sale _ m => m
  | .refill _ m => m
  | .lowStock m => m
  | .stockOk m => m

/-- Subscription table: the `Map<string, ISubscriber[]>` of
PublishSubscribeService, as an association list from event-type string to
the ordered subscriber list.  `ι` is the type of subscriber references;
reference equality becomes decidable equality on `ι`. -/
abbrev Table (ι : Type) : Type := List (String × List ι)

/-- JS `Map.get`: the value stored at `k`, if any. -/
def mapGet {ι : Type} (t : Table ι) (k : String) : Option (List ι) :=
  match t with
  | [] => none
  | (k₂, v) :: rest => if k₂ = k then some v else mapGet rest k

/-- JS `Map.set`: replace the binding of `k` if present, else append it. -/
def mapSet {ι : Type} (t : Table ι) (k : String) (v : List ι) : Table ι :=
  match t with
  | [] => [(k, v)]
  | (k₂, v₂) :: rest =>
    if k₂ = k then (k, v) :: rest else (k₂, v₂) :: mapSet rest k v

/-- JS `Map.delete`: remove the binding of `k`. -/
def mapDelete {ι : Type} (t : Table ι) (k : String) : Table ι :=
  match t with
  | [] => []
  | (k₂, v₂) :: rest =>
    if k₂ = k then rest else (k₂, v₂) :: mapDelete rest k

/-- PublishSubscribeService.subscribe: `get(type) ?? []`, push the handler,
`set(type, list)` (src/app.ts lines 121-125). -/
def subscribe {ι : Type} (t : Table ι) (k : String) (h : ι) : Table ι :=
  mapSet t k ((mapGet t k).getD [] ++ [h])

/-- PublishSubscribeService.unsubscribe: filter out every occurrence of the
handler; delete the entry if the result is empty, else store it
(src/app.ts lines 149-158). -/
def unsubscribe {ι : Type} [DecidableEq ι] (t : Table ι) (k : String) (h : ι) :
    Table ι :=
  match mapGet t k with
  | none => t
  | some list =>
    let filtered := list.filter (fun h₂ => h₂ ≠ h)
    if filtered = [] then mapDelete t k else mapSet t k filtered

/-- One `subscribe` or `unsubscribe` call performed by a handler on the
service while it is being invoked. -/
inductive SubAct (ι : Type) where
  | sub (k : String) (h : ι)
  | unsub (k : String) (h : ι)

/-- Observable effects of one `handle(event)` invocation on a subscriber:
`env` is the subscriber-visible mutable state after the call, `published`
the events it passed to `publish` (in call order), `acts` its
`subscribe`/`unsubscribe` calls (in call order), and `raised` whether the
call threw.  When `raised` is true the other three fields record the
effects performed before the throw, matching JS semantics where side
effects prior to an exception persist. -/
structure HandlerResult (σ ι : Type) where
  env : σ
  published : List Event
  acts : List (SubAct ι)
  raised : Bool

/-- Handler semantics: what subscriber `h`'s `handle` does to the shared
mutable environment `σ` when invoked with an event. -/
def HandlerSem (σ ι : Type) : Type := ι → Event → σ → HandlerResult σ ι

/-- State of a PublishSubscribeService together with the environment the
subscribers share: the subscription table, the pending queue, the
`processing` flag, and the subscriber-visible state. -/
structure PSState (σ ι : Type) where
  subscribers : Table ι
  queue : List Event
  processing : Bool
  env : σ
deriving DecidableEq

/-- Applies the subscribe/unsubscribe calls a handler made, in order. -/
def applyActs {ι : Type} [DecidableEq ι] (t : Table ι) :
    List (SubAct ι) → Table ι
  | [] => t
  | .sub k h :: rest => applyActs (subscribe t k h) rest
  | .unsub k h :: rest => applyActs (unsubscribe t k h) rest

/-- Invokes the snapshot's subscribers in order for one event (the `for`
loop of src/app.ts lines 136-142): each invocation's published events are
appended to the queue (a re-entrant `publish` sees `processing === true`
and only enqueues), its subscribe/unsubscribe calls are applied to the
live table, and a throw is swallowed by the `try { } catch {}` so the loop
continues regardless of `raised`.  Also returns the subscribers invoked,
in invocation order. -/
def runHandlers {σ ι : Type} [DecidableEq ι] (sem : HandlerSem σ ι) :
    List ι → Event → PSState σ ι → PSState σ ι × List ι
  | [], _, st => (st, [])
  | h :: rest, e, st =>
    let r := sem h e st.env
    let st₂ : PSState σ ι :=
      { st with
        env := r.env
        queue := st.queue ++ r.published
        subscribers := applyActs st.subscribers r.acts }
    let out := runHandlers sem rest e st₂
    (out.1, h :: out.2)

/-- Events published during one event's dispatch step, in order, when the
snapshot's handlers run from environment `env`. -/
def cascades {σ ι : Type} (sem : HandlerSem σ ι) :
    List ι → Event → σ → List Event
  | [], _, _ => []
  | h :: rest, e, env =>
    let r := sem h e env
    r.published ++ cascades sem rest e r.env

/-- One iteration body of the drain loop for a popped event: look up the
subscriber list for the event's type, snapshot it (`[...list]`), and run
the handlers over the snapshot (src/app.ts lines 134-142); a missing or
empty list means no handler runs. -/
def dispatchStep {σ ι : Type} [DecidableEq ι] (sem : HandlerSem σ ι)
    (e : Event) (st : PSState σ ι) : PSState σ ι × List ι :=
  runHandlers sem ((mapGet st.subscribers e.type).getD []) e st

/-- The `while (this.queue.length > 0)` drain loop of publish (src/app.ts
lines 132-143), fuel-indexed: pops the front event, dispatches it, and
repeats while fuel remains.  Returns the final state and the list of
dispatched events in dispatch order. -/
def drain {σ ι : Type} [DecidableEq ι] (sem : HandlerSem σ ι) :
    Nat → PSState σ ι → PSState σ ι × List Event
  | 0, st => (st, [])
  | fuel + 1, st =>
    match st.queue with
    | [] => (st, [])
    | e :: rest =>
      let out := dispatchStep sem e { st with queue := rest }
      let next := drain sem fuel out.1
      (next.1, e :: next.2)

/-- PublishSubscribeService.publish (src/app.ts lines 127-147): append the
event to the queue; if already processing, return at once; otherwise set
`processing`, drain the queue, and clear `processing` on exit (the
`finally`).  Returns the resulting state and the dispatched-event trace of
the drain this call ran (empty for a re-entrant call). -/
def publish {σ ι : Type} [DecidableEq ι] (sem : HandlerSem σ ι) (fuel : Nat)
    (e : Event) (st : PSState σ ι) : PSState σ ι × List Event :=
  let st₂ : PSState σ ι := { st with queue := st.queue ++ [e] }
  if st₂.processing then (st₂, [])
  else
    let out := drain sem fuel { st₂ with processing := true }
    ({ out.1 with processing := false }, out.2)

/-- A vending machine (class Machine, src/app.ts lines 107-114): a public
id and a public mutable stock level. -/
structure Machine where
  id : String
  stockLevel : Int
deriving DecidableEq, Repr

/-- The Machine constructor: it takes only the id; the field initializer
`public stockLevel = 10` fixes the starting stock level at 10. -/
def Machine.new (id : String) : Machine :=
  { id := id, stockLevel := 10 }

/-- JS `machines.find((m) => m.id === id)`: first machine with the id. -/
def findMachine (ms : List Machine) (mid : String) : Option Machine :=
  ms.find? (fun m => m.id = mid)

/-- Mutation of the machine object `find` returned: the first machine whose
id matches is updated in place; the rest of the array is untouched. -/
def mutateFirst (ms : List Machine) (mid : String) (f : Machine → Machine) :
    List Machine :=
  match ms with
  | [] => []
  | m :: rest =>
    if m.id = mid then f m :: rest else m :: mutateFirst rest mid f

/-- MachineSaleSubscriber.handle (src/app.ts lines 80-86): on a sale event
whose machine is found, subtract the sold quantity from its stock; on any
other event type, or an unknown machine id, return the machines
unchanged. -/
def saleHandle (e : Event) (ms : List Machine) : List Machine :=
  match e with
  | .sale q mid =>
    match findMachine ms mid with
    | none => ms
    | some _ =>
      mutateFirst ms mid (fun m => { m with stockLevel := m.stockLevel - q })
  | _ => ms

/-- MachineRefillSubscriber.handle (src/app.ts lines 96-102): on a refill
event whose machine is found, add the refill quantity to its stock;
otherwise a no-op. -/
def refillHandle (e : Event) (ms : List Machine) : List Machine :=
  match e with
  | .refill q mid =>
    match findMachine ms mid with
    | none => ms
    | some _ =>
      mutateFirst ms mid (fun m => { m with stockLevel := m.stockLevel + q })
  | _ => ms

/-- JS `Set.add` on the watcher's `below` set of machine ids. -/
def setAdd (s : List String) (x : String) : List String :=
  if x ∈ s then s else s ++ [x]

/-- JS `Set.delete` on the watcher's `below` set of machine ids. -/
def setDelete (s : List String) (x : String) : List String :=
  s.filter (fun y => y ≠ x)

/-- The threshold the program's StockWarningSubscriber is constructed with
(the parameter default `threshold: number = 3`). -/
def defaultThreshold : Int := 3

/-- The StockWarningSubscriber constructor's initialization of its private
`below` set (src/app.ts lines 168-172): ids of injected machines whose
stock is already below the threshold. -/
def warningInit (threshold : Int) (ms : List Machine) : List String :=
  (ms.filter (fun m => m.stockLevel < threshold)).map (fun m => m.id)

/-- StockWarningSubscriber.handle (src/app.ts lines 175-188): on a sale or
refill event for a known machine, compare the machine's current stock with
the threshold and the id's membership in `below`; publish a
LowStockWarningEvent when newly below (adding the id), a StockLevelOkEvent
when newly at-or-above (removing the id), and nothing otherwise.  Returns
the updated `below` set and the published events. -/
def warningHandle (threshold : Int) (e : Event) (ms : List Machine)
    (below : List String) : List String × List Event :=
  if e.type = "sale" ∨ e.type = "refill" then
    match findMachine ms e.machineId with
    | none => (below, [])
    | some m =>
      let isBelow := m.stockLevel < threshold
      let wasBelow := m.id ∈ below
      if isBelow ∧ ¬wasBelow then (setAdd below m.id, [Event.lowStock m.id])
      else if ¬isBelow ∧ wasBelow then
        (setDelete below m.id, [Event.stockOk m.id])
      else (below, [])
  else (below, [])

/-- StockAlertLogger.handle (src/app.ts lines 191-199): console output,
modelled as a list of emitted lines. -/
def loggerHandle (e : Event) (log : List String) : List String :=
  match e with
  | .lowStock mid => log ++ ["LOW STOCK WARNING for machine ID: " ++ mid]
  | .stockOk mid => log ++ ["STOCK LEVEL OK for machine ID: " ++ mid]
  | _ => log

/-- The four subscriber objects the program constructs (src/app.ts lines
230-244). -/
inductive SubId where
  | saleSubscriber
  | refillSubscriber
  | stockWarning
  | alertLogger
deriving DecidableEq, Repr

/-- Shared mutable state of the program's subscribers: the one machines
array injected into all of them, the watcher's private `below` set, and
the logger's console output. -/
structure SimEnv where
  machines : List Machine
  below : List String
  log : List String
deriving DecidableEq, Repr

/-- Handler semantics of the program's four subscribers: each one's
`handle`, with the effects placed in the shared environment.  None of them
calls subscribe or unsubscribe, and none throws. -/
def wiredSem : HandlerSem SimEnv SubId := fun h e env =>
  match h with
  | .saleSubscriber =>
    { env := { env with machines := saleHandle e env.machines }
      published := [], acts := [], raised := false }
  | .refillSubscriber =>
    { env := { env with machines := refillHandle e env.machines }
      published := [], acts := [], raised := false }
  | .stockWarning =>
    let out := warningHandle defaultThreshold e env.machines env.below
    { env := { env with below := out.1 }
      published := out.2, acts := [], raised := false }
  | .alertLogger =>
    { env := { env with log := loggerHandle e env.log }
      published := [], acts := [], raised := false }

/-- The subscription table the program builds, by the six subscribe calls
in program order (src/app.ts lines 237-246). -/
def wiredTable : Table SubId :=
  subscribe (subscribe (subscribe (subscribe (subscribe (subscribe
    [] "sale" .saleSubscriber) "refill" .refillSubscriber)
    "sale" .stockWarning) "refill" .stockWarning)
    "low-stock" .alertLogger) "stock-ok" .alertLogger

/-- The machine collection the program creates: three machines with ids
001, 002, 003, each from the constructor (stock 10). -/
def initMachines : List Machine :=
  [Machine.new "001", Machine.new "002", Machine.new "003"]

/-- Initial dispatcher state of the program: the wired table, an empty
queue, idle, machines as constructed, the watcher's `below` set from its
constructor, and no console output yet. -/
def initState : PSState SimEnv SubId :=
  { subscribers := wiredTable
    queue := []
    processing := false
    env :=
      { machines := initMachines
        below := warningInit defaultThreshold initMachines
        log := [] } }

/-- Publishes a sequence of events one after another, as the program's
`sequence.forEach(e => pubSubService.publish(e))`, accumulating each
publish's dispatched-event trace. -/
def runSeq (fuel : Nat) (events : List Event) (st : PSState SimEnv SubId) :
    PSState SimEnv SubId × List Event :=
  match events with
  | [] => (st, [])
  | e :: rest =>
    let out := publish wiredSem fuel e st
    let next := runSeq fuel rest out.1
    (next.1, out.2 ++ next.2)

/-- Semantics equal to `sem` except that no invocation reports a throw:
used to state that the dispatcher's behaviour is independent of the
`raised` flag (the empty `catch` block). -/
def maskRaises {σ ι : Type} (sem : HandlerSem σ ι) : HandlerSem σ ι :=
  fun h e s => { sem h e s with raised := false }

/-- Idle dispatcher state of the wired program over an arbitrary
subscriber environment: wired table, empty queue, not processing. -/
def idleState (env : SimEnv) : PSState SimEnv SubId :=
  { subscribers := wiredTable, queue := [], processing := false, env := env }

/-- The literal `--test` event sequence of the program (src/app.ts lines
252-258): four sales of 2 and a refill of 3, all on machine 001. -/
def testSeq : List Event :=
  [.sale 2 "001", .sale 2 "001", .sale 2 "001", .sale 2 "001",
   .refill 3 "001"]

/-- Wired semantics in which the sale subscriber's handle additionally
reports a throw after its effects: a hostile instantiation used to witness
fault isolation. -/
def faultySem : HandlerSem SimEnv SubId := fun h e s =>
  match h with
  | .saleSubscriber => { wiredSem .saleSubscriber e s with raised := true }
  | _ => wiredSem h e s

/-! ### Helper lemmas about the dispatcher -/

theorem runHandlers_invoked {σ ι : Type} [DecidableEq ι]
    (sem : HandlerSem σ ι) (hs : List ι) (e : Event) :
    ∀ st : PSState σ ι, (runHandlers sem hs e st).2 = hs := by
  induction hs with
  | nil => intro st; rfl
  | cons h rest ih => intro st; simp [runHandlers, ih]

theorem runHandlers_queue {σ ι : Type} [DecidableEq ι]
    (sem : HandlerSem σ ι) (hs : List ι) (e : Event) :
    ∀ st : PSState σ ι,
      (runHandlers sem hs e st).1.queue = st.queue ++ cascades sem hs e st.env := by
  induction hs with
  | nil => intro st; simp [runHandlers, cascades]
  | cons h rest ih => intro st; simp [runHandlers, cascades, ih]

theorem runHandlers_processing {σ ι : Type} [DecidableEq ι]
    (sem : HandlerSem σ ι) (hs : List ι) (e : Event) :
    ∀ st : PSState σ ι, (runHandlers sem hs e st).1.processing = st.processing := by
  induction hs with
  | nil => intro st; rfl
  | cons h rest ih => intro st; simp [runHandlers, ih]

theorem drain_extends_front {σ ι : Type} [DecidableEq ι]
    (sem : HandlerSem σ ι) (q₁ : List Event) :
    ∀ (fuel : Nat) (st : PSState σ ι), q₁ <+: st.queue → q₁.length ≤ fuel →
      q₁ <+: (drain sem fuel st).2 := by
  induction q₁ with
  | nil => intro fuel st _ _; exact List.nil_prefix
  | cons e q₂ ih =>
    intro fuel st hpre hlen
    match fuel with
    | 0 => exact absurd hlen (by simp)
    | f + 1 =>
      obtain ⟨tail, htail⟩ := hpre
      have hq : st.queue = e :: (q₂ ++ tail) := by
        rw [← htail]; simp
      simp only [drain, hq]
      refine List.prefix_cons_inj e |>.mpr ?_
      refine ih f _ ?_ (by simpa using hlen)
      have : (dispatchStep sem e { st with queue := q₂ ++ tail }).1.queue
          = (q₂ ++ tail) ++ cascades sem
              ((mapGet st.subscribers (Event.type e)).getD []) e st.env := by
        simp [dispatchStep, runHandlers_queue]
      rw [this]
      exact ⟨tail ++ cascades sem ((mapGet st.subscribers (Event.type e)).getD [])
        e st.env, by simp⟩

theorem drain_dispatches_queue {σ ι : Type} [DecidableEq ι]
    (sem : HandlerSem σ ι) (fuel : Nat) (st : PSState σ ι)
    (hlen : st.queue.length ≤ fuel) :
    st.queue <+: (drain sem fuel st).2 :=
  drain_extends_front sem st.queue fuel st (by exact List.prefix_refl _) hlen

theorem drain_empty_of_trace_lt {σ ι : Type} [DecidableEq ι]
    (sem : HandlerSem σ ι) :
    ∀ (fuel : Nat) (st : PSState σ ι),
      (drain sem fuel st).2.length < fuel → (drain sem fuel st).1.queue = [] := by
  intro fuel
  induction fuel with
  | zero => intro st h; exact absurd h (by simp)
  | succ f ih =>
    intro st h
    match hq : st.queue with
    | [] => simp [drain, hq]
    | e :: rest =>
      simp only [drain, hq] at h ⊢
      exact ih _ (by simpa using h)

theorem runHandlers_mask {σ ι : Type} [DecidableEq ι]
    (sem : HandlerSem σ ι) (hs : List ι) (e : Event) :
    ∀ st : PSState σ ι,
      runHandlers (maskRaises sem) hs e st = runHandlers sem hs e st := by
  induction hs with
  | nil => intro st; rfl
  | cons h rest ih => intro st; simp [runHandlers, maskRaises, ih]

theorem drain_mask {σ ι : Type} [DecidableEq ι] (sem : HandlerSem σ ι) :
    ∀ (fuel : Nat) (st : PSState σ ι),
      drain (maskRaises sem) fuel st = drain sem fuel st := by
  intro fuel
  induction fuel with
  | zero => intro st; rfl
  | succ f ih =>
    intro st
    match hq : st.queue with
    | [] => simp [drain, hq]
    | e :: rest => simp [drain, hq, dispatchStep, runHandlers_mask, ih]

theorem publish_mask {σ ι : Type} [DecidableEq ι] (sem : HandlerSem σ ι)
    (fuel : Nat) (e : Event) (st : PSState σ ι) :
    publish (maskRaises sem) fuel e st = publish sem fuel e st := by
  simp [publish, drain_mask]

/-! ### Helper lemmas about the subscription table -/

theorem mapGet_mapSet_self {ι : Type} (t : Table ι) (k : String)
    (v : List ι) : mapGet (mapSet t k v) k = some v := by
  induction t with
  | nil => simp [mapGet, mapSet]
  | cons p rest ih =>
    by_cases h : p.1 = k
    · simp [mapGet, mapSet, h]
    · simp [mapGet, mapSet, h, ih]

theorem mapGet_mapSet_ne {ι : Type} (t : Table ι) (k k₂ : String)
    (v : List ι) (hne : k₂ ≠ k) :
    mapGet (mapSet t k v) k₂ = mapGet t k₂ := by
  have hkk : k ≠ k₂ := Ne.symm hne
  induction t with
  | nil => simp [mapGet, mapSet, hkk]
  | cons p rest ih =>
    by_cases h : p.1 = k
    · simp [mapGet, mapSet, h, hkk]
    · simp [mapGet, mapSet, h, ih]

theorem mapGet_eq_none_of_not_mem {ι : Type} (t : Table ι) (k : String) :
    k ∉ t.map Prod.fst → mapGet t k = none := by
  induction t with
  | nil => intro _; rfl
  | cons p rest ih =>
    intro h
    have h₁ : p.1 ≠ k := by intro hc; exact h (by simp [hc])
    have h₂ : k ∉ rest.map Prod.fst := by intro hc; exact h (by simp [hc])
    simp [mapGet, h₁, ih h₂]

theorem mapGet_mapDelete_self {ι : Type} (t : Table ι) (k : String)
    (hnd : (t.map Prod.fst).Nodup) :
    mapGet (mapDelete t k) k = none := by
  induction t with
  | nil => rfl
  | cons p rest ih =>
    simp only [List.map_cons, List.nodup_cons] at hnd
    by_cases h : p.1 = k
    · subst h
      simp only [mapDelete, if_pos rfl]
      exact mapGet_eq_none_of_not_mem rest p.1 hnd.1
    · simp [mapDelete, mapGet, h, ih hnd.2]

theorem mapGet_mapDelete_ne {ι : Type} (t : Table ι) (k k₂ : String)
    (hne : k₂ ≠ k) : mapGet (mapDelete t k) k₂ = mapGet t k₂ := by
  have hkk : k ≠ k₂ := Ne.symm hne
  induction t with
  | nil => rfl
  | cons p rest ih =>
    by_cases h : p.1 = k
    · simp [mapDelete, mapGet, h, hkk]
    · simp [mapDelete, mapGet, h, ih]

theorem mapSet_get_self {ι : Type} (t : Table ι) (k : String) (v : List ι) :
    mapGet t k = some v → mapSet t k v = t := by
  induction t with
  | nil => intro hget; simp [mapGet] at hget
  | cons p rest ih =>
    intro hget
    by_cases h : p.1 = k
    · cases p with
      | mk k₃ v₃ =>
        simp only at h
        subst h
        simp [mapGet] at hget
        simp [mapSet, hget]
    · simp only [mapGet, h, if_false] at hget
      simp [mapSet, h, ih hget]

theorem unsubscribe_get {ι : Type} [DecidableEq ι] (t : Table ι)
    (k : String) (h : ι) (hnd : (t.map Prod.fst).Nodup) :
    mapGet (unsubscribe t k h) k =
      match mapGet t k with
      | none => none
      | some l =>
        if l.filter (fun x => x ≠ h) = [] then none
        else some (l.filter (fun x => x ≠ h)) := by
  match hg : mapGet t k with
  | none => simp [unsubscribe, hg]
  | some l =>
    simp only [unsubscribe, hg]
    by_cases hf : l.filter (fun x => x ≠ h) = []
    · simp only [hf, if_pos rfl]
      exact mapGet_mapDelete_self t k hnd
    · simp only [hf, if_neg hf]
      exact mapGet_mapSet_self t k _

/-! ### Claim theorems -/

/-- C1: events are dispatched in exactly the order they were appended to
the single pending queue.  First conjunct: every event already in the
queue is dispatched, in queue order, before any event appended later
(cascades are appended at the back, so the current queue is a prefix of
the dispatch trace).  Second conjunct: running one event's handlers never
dispatches anything itself; the events the handlers publish are exactly
appended behind the existing queue (breadth-first, never depth-first
inside the dispatch step). -/
theorem fifo_breadth_first {σ ι : Type} [DecidableEq ι]
    (sem : HandlerSem σ ι) (fuel : Nat) (st : PSState σ ι) (snap : List ι)
    (e : Event) (hfuel : st.queue.length ≤ fuel) :
    st.queue <+: (drain sem fuel st).2 ∧
    (runHandlers sem snap e st).1.queue
      = st.queue ++ cascades sem snap e st.env :=
  ⟨drain_dispatches_queue sem fuel st hfuel, runHandlers_queue sem snap e st⟩

theorem fifo_breadth_first_witness :
    [Event.sale 2 "001", Event.refill 3 "001"] <+:
      (drain wiredSem 5 { initState with
        queue := [Event.sale 2 "001", Event.refill 3 "001"]
        processing := true }).2 ∧
    (runHandlers wiredSem [SubId.alertLogger] (Event.lowStock "001")
        { initState with
          queue := [Event.sale 2 "001", Event.refill 3 "001"]
          processing := true }).1.queue
      = [Event.sale 2 "001", Event.refill 3 "001"] ++
          cascades wiredSem [SubId.alertLogger] (Event.lowStock "001")
            initState.env :=
  fifo_breadth_first wiredSem 5
    { initState with
      queue := [Event.sale 2 "001", Event.refill 3 "001"]
      processing := true }
    [SubId.alertLogger] (Event.lowStock "001") (by decide)

/-- C2: the draining flag discipline.  First conjunct: a publish arriving
while the flag is set only appends its event and returns at once, running
no nested drain.  Second conjunct: publish leaves the flag as it found it
on every exit path (an idle caller gets it back cleared, a re-entrant
caller leaves it set).  Third conjunct: an idle publish whose drain
stopped short of its fuel has synchronously processed the queue to empty
before returning.  Fourth conjunct: the event appended by a re-entrant
publish is delivered by the outer drain (it is in the outer drain's
dispatch trace whenever that drain has fuel for the queue). -/
theorem processing_flag_discipline {σ ι : Type} [DecidableEq ι]
    (sem : HandlerSem σ ι) (fuel : Nat) (e : Event) (st : PSState σ ι) :
    (st.processing = true →
      publish sem fuel e st = ({ st with queue := st.queue ++ [e] }, [])) ∧
    (publish sem fuel e st).1.processing = st.processing ∧
    (st.processing = false → (publish sem fuel e st).2.length < fuel →
      (publish sem fuel e st).1.queue = []) ∧
    (st.processing = true → ∀ fuel₂ : Nat, st.queue.length + 1 ≤ fuel₂ →
      e ∈ (drain sem fuel₂ { st with queue := st.queue ++ [e] }).2) := by
  refine ⟨?_, ?_, ?_, ?_⟩
  · intro hp; simp [publish, hp]
  · cases hp : st.processing with
    | true => simp [publish, hp]
    | false => simp [publish, hp]
  · intro hp hlen
    simp only [publish, hp, Bool.false_eq_true, if_false] at hlen ⊢
    exact drain_empty_of_trace_lt sem fuel _ hlen
  · intro _ fuel₂ hlen
    have hpre := drain_dispatches_queue sem fuel₂
      { st with queue := st.queue ++ [e] } (by simpa using hlen)
    exact hpre.subset (by simp)

theorem processing_flag_discipline_witness :
    (publish wiredSem 3 (Event.refill 3 "001")
        { initState with processing := true, queue := [Event.sale 2 "001"] }
      = ({ initState with
           processing := true
           queue := [Event.sale 2 "001"] ++ [Event.refill 3 "001"] }, [])) ∧
    (publish wiredSem 3 (Event.sale 2 "001") initState).1.queue = [] ∧
    Event.refill 3 "001" ∈
      (drain wiredSem 3 { initState with
        processing := true
        queue := [Event.sale 2 "001"] ++ [Event.refill 3 "001"] }).2 := by
  refine ⟨?_, ?_, ?_⟩
  · exact (processing_flag_discipline wiredSem 3 (Event.refill 3 "001")
      { initState with
        processing := true
        queue := [Event.sale 2 "001"] }).1 rfl
  · exact (processing_flag_discipline wiredSem 3 (Event.sale 2 "001")
      initState).2.2.1 rfl (by decide)
  · exact (processing_flag_discipline wiredSem 3 (Event.refill 3 "001")
      { initState with
        processing := true
        queue := [Event.sale 2 "001"] }).2.2.2 rfl 3 (by decide)

/-- C3: handler failures are caught and discarded at the dispatch-step
boundary.  First conjunct: every subscriber in the snapshot is invoked,
for every handler semantics, including ones whose invocations throw.
Second conjunct: the whole publish (state and trace) is identical to the
publish in which no handler reports a throw, so a failure neither skips
subscribers, nor stops queued events, nor surfaces anything to the
caller.  Third conjunct: every queued event is still dispatched. -/
theorem handler_fault_isolation {σ ι : Type} [DecidableEq ι]
    (sem : HandlerSem σ ι) (snap : List ι) (e : Event) (st : PSState σ ι)
    (fuel : Nat) (hfuel : st.queue.length ≤ fuel) :
    (runHandlers sem snap e st).2 = snap ∧
    publish sem fuel e st = publish (maskRaises sem) fuel e st ∧
    st.queue <+: (drain sem fuel st).2 :=
  ⟨runHandlers_invoked sem snap e st, (publish_mask sem fuel e st).symm,
   drain_dispatches_queue sem fuel st hfuel⟩

theorem handler_fault_isolation_witness :
    (runHandlers faultySem [SubId.saleSubscriber, SubId.stockWarning]
        (Event.sale 2 "001")
        { initState with
          processing := true
          queue := [Event.refill 3 "002"] }).2
      = [SubId.saleSubscriber, SubId.stockWarning] ∧
    publish faultySem 3 (Event.sale 2 "001")
        { initState with
          processing := true
          queue := [Event.refill 3 "002"] }
      = publish (maskRaises faultySem) 3 (Event.sale 2 "001")
        { initState with
          processing := true
          queue := [Event.refill 3 "002"] } ∧
    [Event.refill 3 "002"] <+:
      (drain faultySem 3 { initState with
        processing := true
        queue := [Event.refill 3 "002"] }).2 :=
  handler_fault_isolation faultySem [SubId.saleSubscriber, SubId.stockWarning]
    (Event.sale 2 "001")
    { initState with processing := true, queue := [Event.refill 3 "002"] }
    3 (by decide)

/-- C4: the subscribers invoked for a dispatched event are exactly the
snapshot of the event-kind's list taken from the table before the first
handler runs, in snapshot order, for every handler semantics — in
particular for handlers that subscribe or unsubscribe during their own
invocation — so no snapshot entry is skipped or invoked twice. -/
theorem snapshot_isolation {σ ι : Type} [DecidableEq ι]
    (sem : HandlerSem σ ι) (e : Event) (st : PSState σ ι) :
    (dispatchStep sem e st).2 = (mapGet st.subscribers e.type).getD [] :=
  runHandlers_invoked sem _ e st

/-- C7: unsubscribe removes all occurrences of the handler from the
kind's list (deleting the entry when the result is empty), is a
(structural) no-op when the kind or the handler is absent, leaves every
other kind's list untouched, keeps the remaining subscribers of the kind
in their relative order, and the removed handler is invoked for no event
of that kind dispatched against the resulting table.  The `hnd`
hypothesis states the table's keys are duplicate-free, as for every JS
Map. -/
theorem unsubscribe_correct {ι : Type} [DecidableEq ι] (t : Table ι)
    (k : String) (h : ι) (hnd : (t.map Prod.fst).Nodup) :
    (∀ l, mapGet t k = some l →
      mapGet (unsubscribe t k h) k =
        (if l.filter (fun x => x ≠ h) = [] then none
         else some (l.filter (fun x => x ≠ h)))) ∧
    (∀ k₂, k₂ ≠ k → mapGet (unsubscribe t k h) k₂ = mapGet t k₂) ∧
    (mapGet t k = none → unsubscribe t k h = t) ∧
    (∀ l, mapGet t k = some l → h ∉ l → l ≠ [] → unsubscribe t k h = t) ∧
    (∀ l, mapGet (unsubscribe t k h) k = some l →
      h ∉ l ∧ l.Sublist ((mapGet t k).getD [])) ∧
    (∀ (σ : Type) (sem : HandlerSem σ ι) (e : Event) (st : PSState σ ι),
      st.subscribers = unsubscribe t k h → e.type = k →
      h ∉ (dispatchStep sem e st).2) := by
  refine ⟨?_, ?_, ?_, ?_, ?_, ?_⟩
  · intro l hl
    rw [unsubscribe_get t k h hnd, hl]
  · intro k₂ hk
    match hg : mapGet t k with
    | none => simp [unsubscribe, hg]
    | some l =>
      simp only [unsubscribe, hg]
      by_cases hf : l.filter (fun x => x ≠ h) = []
      · simp only [hf, if_pos rfl]
        exact mapGet_mapDelete_ne t k k₂ hk
      · simp only [if_neg hf]
        exact mapGet_mapSet_ne t k k₂ _ hk
  · intro hn; simp [unsubscribe, hn]
  · intro l hl hmem hne
    have hfilt : l.filter (fun x => x ≠ h) = l := by
      refine List.filter_eq_self.mpr ?_
      intro a ha
      have hah : a ≠ h := fun hc => hmem (hc ▸ ha)
      simp [hah]
    simp only [unsubscribe, hl, hfilt, if_neg hne]
    exact mapSet_get_self t k l hl
  · intro l hl
    rw [unsubscribe_get t k h hnd] at hl
    match hg : mapGet t k with
    | none => simp [hg] at hl
    | some l₀ =>
      simp only [hg] at hl
      by_cases hf : l₀.filter (fun x => x ≠ h) = []
      · rw [if_pos hf] at hl
        exact Option.noConfusion hl
      · rw [if_neg hf] at hl
        rw [Option.some.injEq] at hl
        constructor
        · rw [← hl]
          intro hc
          have := List.of_mem_filter hc
          simp at this
        · rw [← hl]
          simp only [Option.getD_some]
          exact List.filter_sublist l₀
  · intro σ sem e st hsub htype
    have hstep : (dispatchStep sem e st).2
        = (mapGet st.subscribers e.type).getD [] :=
      runHandlers_invoked sem _ e st
    rw [hstep, hsub, htype]
    match hg2 : mapGet (unsubscribe t k h) k with
    | none => simp
    | some l =>
      simp only [Option.getD_some]
      rw [unsubscribe_get t k h hnd] at hg2
      match hg : mapGet t k with
      | none => simp [hg] at hg2
      | some l₀ =>
        simp only [hg] at hg2
        by_cases hf : l₀.filter (fun x => x ≠ h) = []
        · rw [if_pos hf] at hg2
          exact Option.noConfusion hg2
        · rw [if_neg hf] at hg2
          rw [Option.some.injEq] at hg2
          rw [← hg2]
          intro hc
          have := List.of_mem_filter hc
          simp at this

theorem unsubscribe_correct_witness :
    mapGet (unsubscribe [("sale", [1, 2, 1]), ("refill", [3])] "sale" 1)
        "sale"
      = (if ([1, 2, 1] : List Nat).filter (fun x => x ≠ 1) = [] then none
         else some (([1, 2, 1] : List Nat).filter (fun x => x ≠ 1))) ∧
    mapGet (unsubscribe [("sale", [1, 2, 1]), ("refill", [3])] "sale" 1)
        "refill"
      = mapGet [("sale", [1, 2, 1]), ("refill", [3])] "refill" ∧
    unsubscribe [("sale", [1, 2, 1]), ("refill", [3])] "stock-ok" 1
      = [("sale", [1, 2, 1]), ("refill", [3])] ∧
    unsubscribe [("sale", [1, 2, 1]), ("refill", [3])] "sale" 7
      = [("sale", [1, 2, 1]), ("refill", [3])] ∧
    (1 : Nat) ∉ (dispatchStep
      (fun (_ : Nat) (_ : Event) (_ : Unit) => HandlerResult.mk () [] [] false)
      (Event.sale 5 "m")
      { subscribers := unsubscribe [("sale", [1, 2, 1]), ("refill", [3])]
          "sale" 1
        queue := []
        processing := true
        env := () }).2 := by
  refine ⟨?_, ?_, ?_, ?_, ?_⟩
  · exact (unsubscribe_correct [("sale", [1, 2, 1]), ("refill", [3])]
      "sale" 1 (by decide)).1 [1, 2, 1] (by decide)
  · exact (unsubscribe_correct [("sale", [1, 2, 1]), ("refill", [3])]
      "sale" 1 (by decide)).2.1 "refill" (by decide)
  · exact (unsubscribe_correct [("sale", [1, 2, 1]), ("refill", [3])]
      "stock-ok" 1 (by decide)).2.2.1 (by decide)
  · exact (unsubscribe_correct [("sale", [1, 2, 1]), ("refill", [3])]
      "sale" 7 (by decide)).2.2.2.1 [1, 2, 1] (by decide) (by decide)
      (by decide)
  · exact (unsubscribe_correct [("sale", [1, 2, 1]), ("refill", [3])]
      "sale" 1 (by decide)).2.2.2.2.2 Unit
      (fun (_ : Nat) (_ : Event) (_ : Unit) => HandlerResult.mk () [] [] false)
      (Event.sale 5 "m") _ rfl rfl

/-! ### Helper lemmas about the wired program -/

theorem wiredTable_get :
    mapGet wiredTable "sale"
        = some [SubId.saleSubscriber, SubId.stockWarning] ∧
    mapGet wiredTable "refill"
        = some [SubId.refillSubscriber, SubId.stockWarning] ∧
    mapGet wiredTable "low-stock" = some [SubId.alertLogger] ∧
    mapGet wiredTable "stock-ok" = some [SubId.alertLogger] := by
  refine ⟨?_, ?_, ?_, ?_⟩ <;> decide

theorem runHandlers_logger (c : Event) (st : PSState SimEnv SubId) :
    runHandlers wiredSem [SubId.alertLogger] c st
      = ({ st with env := { st.env with log := loggerHandle c st.env.log } },
         [SubId.alertLogger]) := by
  cases st with
  | mk subs q p env =>
    cases env with
    | mk ms below log => simp [runHandlers, wiredSem, applyActs]

theorem runHandlers_sale_step (e : Event) (st : PSState SimEnv SubId) :
    runHandlers wiredSem [SubId.saleSubscriber, SubId.stockWarning] e st
      = ({ st with
            env :=
              { machines := saleHandle e st.env.machines
                below := (warningHandle defaultThreshold e
                  (saleHandle e st.env.machines) st.env.below).1
                log := st.env.log }
            queue := st.queue ++ (warningHandle defaultThreshold e
              (saleHandle e st.env.machines) st.env.below).2 },
         [SubId.saleSubscriber, SubId.stockWarning]) := by
  cases st with
  | mk subs q p env =>
    cases env with
    | mk ms below log => simp [runHandlers, wiredSem, applyActs]

theorem runHandlers_refill_step (e : Event) (st : PSState SimEnv SubId) :
    runHandlers wiredSem [SubId.refillSubscriber, SubId.stockWarning] e st
      = ({ st with
            env :=
              { machines := refillHandle e st.env.machines
                below := (warningHandle defaultThreshold e
                  (refillHandle e st.env.machines) st.env.below).1
                log := st.env.log }
            queue := st.queue ++ (warningHandle defaultThreshold e
              (refillHandle e st.env.machines) st.env.below).2 },
         [SubId.refillSubscriber, SubId.stockWarning]) := by
  cases st with
  | mk subs q p env =>
    cases env with
    | mk ms below log => simp [runHandlers, wiredSem, applyActs]

theorem warningHandle_pub_cases (th : Int) (e : Event) (ms : List Machine)
    (below : List String) :
    (warningHandle th e ms below).2 = [] ∨
    (∃ mid, (warningHandle th e ms below).2 = [Event.lowStock mid]) ∨
    (∃ mid, (warningHandle th e ms below).2 = [Event.stockOk mid]) := by
  unfold warningHandle
  split
  · split
    · left; rfl
    · dsimp only
      split
      · right; left; exact ⟨_, rfl⟩
      · split
        · right; right; exact ⟨_, rfl⟩
        · left; rfl
  · left; rfl

theorem drain_alert (st : PSState SimEnv SubId)
    (hsub : st.subscribers = wiredTable)
    (hq : st.queue = [] ∨ (∃ mid, st.queue = [Event.lowStock mid]) ∨
      (∃ mid, st.queue = [Event.stockOk mid])) :
    (drain wiredSem 1 st).1.queue = [] ∧
    (drain wiredSem 1 st).1.env.machines = st.env.machines ∧
    (drain wiredSem 1 st).1.processing = st.processing := by
  rcases hq with hq | ⟨mid, hq⟩ | ⟨mid, hq⟩
  · simp [drain, hq]
  · simp only [drain, hq, dispatchStep, hsub, Event.type,
      wiredTable_get.2.2.1, Option.getD_some, runHandlers_logger]
    simp
  · simp only [drain, hq, dispatchStep, hsub, Event.type,
      wiredTable_get.2.2.2, Option.getD_some, runHandlers_logger]
    simp

theorem drain_succ_cons {σ ι : Type} [DecidableEq ι] (sem : HandlerSem σ ι)
    (fuel : Nat) (st : PSState σ ι) (e : Event) (rest : List Event)
    (hq : st.queue = e :: rest) :
    drain sem (fuel + 1) st
      = ((drain sem fuel
            (dispatchStep sem e { st with queue := rest }).1).1,
         e :: (drain sem fuel
            (dispatchStep sem e { st with queue := rest }).1).2) := by
  simp only [drain, hq]

theorem dispatchStep_sale_wired (q : Int) (mid : String) (env : SimEnv) :
    dispatchStep wiredSem (Event.sale q mid)
      { subscribers := wiredTable, queue := [], processing := true,
        env := env }
      = ({ subscribers := wiredTable
           queue := (warningHandle defaultThreshold (Event.sale q mid)
             (saleHandle (Event.sale q mid) env.machines) env.below).2
           processing := true
           env :=
             { machines := saleHandle (Event.sale q mid) env.machines
               below := (warningHandle defaultThreshold (Event.sale q mid)
                 (saleHandle (Event.sale q mid) env.machines) env.below).1
               log := env.log } },
         [SubId.saleSubscriber, SubId.stockWarning]) := by
  rw [dispatchStep]
  rw [show Event.type (Event.sale q mid) = "sale" from rfl]
  rw [wiredTable_get.1, Option.getD_some, runHandlers_sale_step]
  rfl

theorem dispatchStep_refill_wired (q : Int) (mid : String) (env : SimEnv) :
    dispatchStep wiredSem (Event.refill q mid)
      { subscribers := wiredTable, queue := [], processing := true,
        env := env }
      = ({ subscribers := wiredTable
           queue := (warningHandle defaultThreshold (Event.refill q mid)
             (refillHandle (Event.refill q mid) env.machines) env.below).2
           processing := true
           env :=
             { machines := refillHandle (Event.refill q mid) env.machines
               below := (warningHandle defaultThreshold (Event.refill q mid)
                 (refillHandle (Event.refill q mid) env.machines) env.below).1
               log := env.log } },
         [SubId.refillSubscriber, SubId.stockWarning]) := by
  rw [dispatchStep]
  rw [show Event.type (Event.refill q mid) = "refill" from rfl]
  rw [wiredTable_get.2.1, Option.getD_some, runHandlers_refill_step]
  rfl

theorem publish_sale_wired (q : Int) (mid : String) (env : SimEnv) :
    (publish wiredSem 2 (Event.sale q mid) (idleState env)).1.queue = [] ∧
    (publish wiredSem 2 (Event.sale q mid) (idleState env)).1.processing
      = false ∧
    (publish wiredSem 2 (Event.sale q mid) (idleState env)).1.env.machines
      = saleHandle (Event.sale q mid) env.machines := by
  have hpub : publish wiredSem 2 (Event.sale q mid) (idleState env)
      = ({ (drain wiredSem 2
              ⟨wiredTable, [Event.sale q mid], true, env⟩).1
            with processing := false },
         (drain wiredSem 2
            ⟨wiredTable, [Event.sale q mid], true, env⟩).2) := rfl
  have hd := drain_succ_cons wiredSem 1
    ⟨wiredTable, [Event.sale q mid], true, env⟩ (Event.sale q mid) [] rfl
  have hds := dispatchStep_sale_wired q mid env
  have halert := drain_alert
    (dispatchStep wiredSem (Event.sale q mid)
      { subscribers := wiredTable, queue := [], processing := true,
        env := env }).1
    (by rw [hds])
    (by rw [hds]
        exact warningHandle_pub_cases defaultThreshold (Event.sale q mid)
          (saleHandle (Event.sale q mid) env.machines) env.below)
  refine ⟨?_, rfl, ?_⟩
  · rw [hpub]
    show (drain wiredSem 2 _).1.queue = []
    rw [hd]
    exact halert.1
  · rw [hpub]
    show (drain wiredSem 2 _).1.env.machines = _
    rw [hd]
    rw [halert.2.1, hds]

theorem publish_refill_wired (q : Int) (mid : String) (env : SimEnv) :
    (publish wiredSem 2 (Event.refill q mid) (idleState env)).1.queue = [] ∧
    (publish wiredSem 2 (Event.refill q mid) (idleState env)).1.processing
      = false ∧
    (publish wiredSem 2 (Event.refill q mid) (idleState env)).1.env.machines
      = refillHandle (Event.refill q mid) env.machines := by
  have hpub : publish wiredSem 2 (Event.refill q mid) (idleState env)
      = ({ (drain wiredSem 2
              ⟨wiredTable, [Event.refill q mid], true, env⟩).1
            with processing := false },
         (drain wiredSem 2
            ⟨wiredTable, [Event.refill q mid], true, env⟩).2) := rfl
  have hd := drain_succ_cons wiredSem 1
    ⟨wiredTable, [Event.refill q mid], true, env⟩ (Event.refill q mid) [] rfl
  have hds := dispatchStep_refill_wired q mid env
  have halert := drain_alert
    (dispatchStep wiredSem (Event.refill q mid)
      { subscribers := wiredTable, queue := [], processing := true,
        env := env }).1
    (by rw [hds])
    (by rw [hds]
        exact warningHandle_pub_cases defaultThreshold (Event.refill q mid)
          (refillHandle (Event.refill q mid) env.machines) env.below)
  refine ⟨?_, rfl, ?_⟩
  · rw [hpub]
    show (drain wiredSem 2 _).1.queue = []
    rw [hd]
    exact halert.1
  · rw [hpub]
    show (drain wiredSem 2 _).1.env.machines = _
    rw [hd]
    rw [halert.2.1, hds]

theorem publish_lowStock_wired (mid : String) (env : SimEnv) :
    (publish wiredSem 2 (Event.lowStock mid) (idleState env)).1.queue
      = [] ∧
    (publish wiredSem 2 (Event.lowStock mid) (idleState env)).1.processing
      = false ∧
    (publish wiredSem 2 (Event.lowStock mid) (idleState env)).1.env.machines
      = env.machines := by
  have hpub : publish wiredSem 2 (Event.lowStock mid) (idleState env)
      = ({ (drain wiredSem 2
              ⟨wiredTable, [Event.lowStock mid], true, env⟩).1
            with processing := false },
         (drain wiredSem 2
            ⟨wiredTable, [Event.lowStock mid], true, env⟩).2) := rfl
  have hd := drain_succ_cons wiredSem 1
    ⟨wiredTable, [Event.lowStock mid], true, env⟩ (Event.lowStock mid) [] rfl
  have hds : dispatchStep wiredSem (Event.lowStock mid)
      { subscribers := wiredTable, queue := [], processing := true,
        env := env }
      = ({ subscribers := wiredTable
           queue := []
           processing := true
           env := { machines := env.machines
                    below := env.below
                    log := loggerHandle (Event.lowStock mid) env.log } },
         [SubId.alertLogger]) := by
    rw [dispatchStep]
    rw [show Event.type (Event.lowStock mid) = "low-stock" from rfl]
    rw [wiredTable_get.2.2.1, Option.getD_some, runHandlers_logger]
  refine ⟨?_, rfl, ?_⟩
  · rw [hpub]
    show (drain wiredSem 2 _).1.queue = []
    rw [hd, hds]
    simp [drain]
  · rw [hpub]
    show (drain wiredSem 2 _).1.env.machines = _
    rw [hd, hds]
    simp [drain]

theorem publish_stockOk_wired (mid : String) (env : SimEnv) :
    (publish wiredSem 2 (Event.stockOk mid) (idleState env)).1.queue
      = [] ∧
    (publish wiredSem 2 (Event.stockOk mid) (idleState env)).1.processing
      = false ∧
    (publish wiredSem 2 (Event.stockOk mid) (idleState env)).1.env.machines
      = env.machines := by
  have hpub : publish wiredSem 2 (Event.stockOk mid) (idleState env)
      = ({ (drain wiredSem 2
              ⟨wiredTable, [Event.stockOk mid], true, env⟩).1
            with processing := false },
         (drain wiredSem 2
            ⟨wiredTable, [Event.stockOk mid], true, env⟩).2) := rfl
  have hd := drain_succ_cons wiredSem 1
    ⟨wiredTable, [Event.stockOk mid], true, env⟩ (Event.stockOk mid) [] rfl
  have hds : dispatchStep wiredSem (Event.stockOk mid)
      { subscribers := wiredTable, queue := [], processing := true,
        env := env }
      = ({ subscribers := wiredTable
           queue := []
           processing := true
           env := { machines := env.machines
                    below := env.below
                    log := loggerHandle (Event.stockOk mid) env.log } },
         [SubId.alertLogger]) := by
    rw [dispatchStep]
    rw [show Event.type (Event.stockOk mid) = "stock-ok" from rfl]
    rw [wiredTable_get.2.2.2, Option.getD_some, runHandlers_logger]
  refine ⟨?_, rfl, ?_⟩
  · rw [hpub]
    show (drain wiredSem 2 _).1.queue = []
    rw [hd, hds]
    simp [drain]
  · rw [hpub]
    show (drain wiredSem 2 _).1.env.machines = _
    rw [hd, hds]
    simp [drain]

theorem findMachine_mutateFirst (ms : List Machine) (mid : String)
    (f : Machine → Machine) (hid : ∀ m, (f m).id = m.id) :
    findMachine (mutateFirst ms mid f) mid = (findMachine ms mid).map f := by
  induction ms with
  | nil => rfl
  | cons m rest ih =>
    by_cases h : m.id = mid
    · simp [mutateFirst, findMachine, h, hid, List.find?]
    · simp only [mutateFirst, if_neg h]
      simp only [findMachine, List.find?] at ih ⊢
      simp [h, ih]

theorem saleHandle_found (q : Int) (mid : String) (ms : List Machine)
    (m : Machine) (hf : findMachine ms mid = some m) :
    findMachine (saleHandle (Event.sale q mid) ms) mid
      = some { m with stockLevel := m.stockLevel - q } := by
  simp only [saleHandle, hf]
  rw [findMachine_mutateFirst ms mid
    (fun m₂ => { m₂ with stockLevel := m₂.stockLevel - q }) (fun m₂ => rfl),
    hf]
  rfl

theorem refillHandle_found (q : Int) (mid : String) (ms : List Machine)
    (m : Machine) (hf : findMachine ms mid = some m) :
    findMachine (refillHandle (Event.refill q mid) ms) mid
      = some { m with stockLevel := m.stockLevel + q } := by
  simp only [refillHandle, hf]
  rw [findMachine_mutateFirst ms mid
    (fun m₂ => { m₂ with stockLevel := m₂.stockLevel + q }) (fun m₂ => rfl),
    hf]
  rfl

/-- C5: the threshold watcher is edge-triggered with the default threshold
3.  General conjuncts: on a sale/refill event for a known machine it
publishes exactly one LowStockWarning on a transition to below threshold,
exactly one StockLevelOk on a transition to at-or-above, and nothing when
no transition happens.  Scenario conjuncts (wired program, machine 001
starting at 10): four sales of 2 produce exactly one LowStockWarning,
dispatched right after the fourth sale; the refill of 3 produces exactly
one StockLevelOk; two further sales of 1 (landing at 4 and 3) re-publish
nothing, while a third (crossing to 2) publishes a second warning. -/
theorem threshold_edge_triggered :
    (∀ (e : Event) (ms : List Machine) (below : List String) (m : Machine),
      (e.type = "sale" ∨ e.type = "refill") →
      findMachine ms e.machineId = some m →
      m.stockLevel < defaultThreshold → m.id ∉ below →
      warningHandle defaultThreshold e ms below
        = (setAdd below m.id, [Event.lowStock m.id])) ∧
    (∀ (e : Event) (ms : List Machine) (below : List String) (m : Machine),
      (e.type = "sale" ∨ e.type = "refill") →
      findMachine ms e.machineId = some m →
      ¬m.stockLevel < defaultThreshold → m.id ∈ below →
      warningHandle defaultThreshold e ms below
        = (setDelete below m.id, [Event.stockOk m.id])) ∧
    (∀ (e : Event) (ms : List Machine) (below : List String) (m : Machine),
      (e.type = "sale" ∨ e.type = "refill") →
      findMachine ms e.machineId = some m →
      ((m.stockLevel < defaultThreshold ∧ m.id ∈ below) ∨
       (¬m.stockLevel < defaultThreshold ∧ m.id ∉ below)) →
      warningHandle defaultThreshold e ms below = (below, [])) ∧
    (runSeq 5 testSeq initState).2
      = [Event.sale 2 "001", Event.sale 2 "001", Event.sale 2 "001",
         Event.sale 2 "001", Event.lowStock "001", Event.refill 3 "001",
         Event.stockOk "001"] ∧
    (runSeq 5 (testSeq ++ [Event.sale 1 "001", Event.sale 1 "001"])
        initState).2.count (Event.lowStock "001") = 1 ∧
    (runSeq 5 (testSeq ++ [Event.sale 1 "001", Event.sale 1 "001"])
        initState).2.count (Event.stockOk "001") = 1 ∧
    (runSeq 5 (testSeq ++ [Event.sale 1 "001", Event.sale 1 "001",
        Event.sale 1 "001"]) initState).2.count (Event.lowStock "001")
      = 2 := by
  refine ⟨?_, ?_, ?_, by decide, by decide, by decide, by decide⟩
  · intro e ms below m hkind hfind hlow hnotmem
    unfold warningHandle
    rw [if_pos hkind]
    simp only [hfind]
    rw [if_pos ⟨hlow, hnotmem⟩]
  · intro e ms below m hkind hfind hhigh hmem
    unfold warningHandle
    rw [if_pos hkind]
    simp only [hfind]
    rw [if_neg (fun hc => hhigh hc.1), if_pos ⟨hhigh, hmem⟩]
  · intro e ms below m hkind hfind hmix
    unfold warningHandle
    rw [if_pos hkind]
    simp only [hfind]
    rcases hmix with ⟨hlow, hmem⟩ | ⟨hhigh, hnotmem⟩
    · rw [if_neg (fun hc => hc.2 hmem), if_neg (fun hc => hc.1 hlow)]
    · rw [if_neg (fun hc => hhigh hc.1), if_neg (fun hc => hnotmem hc.2)]

theorem threshold_edge_triggered_witness :
    warningHandle defaultThreshold (Event.sale 2 "001")
        [{ id := "001", stockLevel := 2 }] []
      = (setAdd [] "001", [Event.lowStock "001"]) ∧
    warningHandle defaultThreshold (Event.refill 3 "001")
        [{ id := "001", stockLevel := 5 }] ["001"]
      = (setDelete ["001"] "001", [Event.stockOk "001"]) ∧
    warningHandle defaultThreshold (Event.sale 2 "001")
        [{ id := "001", stockLevel := 2 }] ["001"]
      = (["001"], []) := by
  refine ⟨?_, ?_, ?_⟩
  · exact threshold_edge_triggered.1 (Event.sale 2 "001")
      [{ id := "001", stockLevel := 2 }] [] { id := "001", stockLevel := 2 }
      (Or.inl rfl) (by decide) (by decide) (by decide)
  · exact threshold_edge_triggered.2.1 (Event.refill 3 "001")
      [{ id := "001", stockLevel := 5 }] ["001"]
      { id := "001", stockLevel := 5 }
      (Or.inr rfl) (by decide) (by decide) (by decide)
  · exact threshold_edge_triggered.2.2.1 (Event.sale 2 "001")
      [{ id := "001", stockLevel := 2 }] ["001"]
      { id := "001", stockLevel := 2 }
      (Or.inl rfl) (by decide) (Or.inl (by decide))

/-- C6: each stock-mutation subscriber handles exactly one event kind.
First two conjuncts: on its matching event for a known machine, the sale
subscriber subtracts the sold quantity from that machine's stock and the
refill subscriber adds the refill quantity.  Next four conjuncts: a
non-matching event type, or a machine id absent from the collection,
returns the machines unchanged.  Last two conjuncts (wired program):
publishing Sale(1, "999") against machines 001, 002, 003 leaves the whole
subscriber environment untouched and dispatches only the sale event
itself — no warning/ok event is emitted. -/
theorem mutation_subscribers_single_kind :
    (∀ (q : Int) (mid : String) (ms : List Machine) (m : Machine),
      findMachine ms mid = some m →
      findMachine (saleHandle (Event.sale q mid) ms) mid
        = some { m with stockLevel := m.stockLevel - q }) ∧
    (∀ (q : Int) (mid : String) (ms : List Machine) (m : Machine),
      findMachine ms mid = some m →
      findMachine (refillHandle (Event.refill q mid) ms) mid
        = some { m with stockLevel := m.stockLevel + q }) ∧
    (∀ (e : Event) (ms : List Machine), e.type ≠ "sale" →
      saleHandle e ms = ms) ∧
    (∀ (e : Event) (ms : List Machine), e.type ≠ "refill" →
      refillHandle e ms = ms) ∧
    (∀ (q : Int) (mid : String) (ms : List Machine),
      findMachine ms mid = none → saleHandle (Event.sale q mid) ms = ms) ∧
    (∀ (q : Int) (mid : String) (ms : List Machine),
      findMachine ms mid = none →
      refillHandle (Event.refill q mid) ms = ms) ∧
    (publish wiredSem 2 (Event.sale 1 "999") initState).1.env
      = initState.env ∧
    (publish wiredSem 2 (Event.sale 1 "999") initState).2
      = [Event.sale 1 "999"] := by
  refine ⟨saleHandle_found, refillHandle_found, ?_, ?_, ?_, ?_,
    by decide, by decide⟩
  · intro e ms htype
    cases e with
    | sale q mid => exact absurd rfl htype
    | refill q mid => rfl
    | lowStock mid => rfl
    | stockOk mid => rfl
  · intro e ms htype
    cases e with
    | refill q mid => exact absurd rfl htype
    | sale q mid => rfl
    | lowStock mid => rfl
    | stockOk mid => rfl
  · intro q mid ms hnone
    simp [saleHandle, hnone]
  · intro q mid ms hnone
    simp [refillHandle, hnone]

theorem mutation_subscribers_single_kind_witness :
    findMachine (saleHandle (Event.sale 2 "001") initMachines) "001"
      = some { id := "001", stockLevel := 10 - 2 } ∧
    findMachine (refillHandle (Event.refill 3 "002") initMachines) "002"
      = some { id := "002", stockLevel := 10 + 3 } ∧
    saleHandle (Event.refill 3 "001") initMachines = initMachines ∧
    refillHandle (Event.sale 2 "001") initMachines = initMachines ∧
    saleHandle (Event.sale 1 "999") initMachines = initMachines ∧
    refillHandle (Event.refill 1 "999") initMachines = initMachines := by
  refine ⟨?_, ?_, ?_, ?_, ?_, ?_⟩
  · exact mutation_subscribers_single_kind.1 2 "001" initMachines
      (Machine.new "001") (by decide)
  · exact mutation_subscribers_single_kind.2.1 3 "002" initMachines
      (Machine.new "002") (by decide)
  · exact mutation_subscribers_single_kind.2.2.1 (Event.refill 3 "001")
      initMachines (by decide)
  · exact mutation_subscribers_single_kind.2.2.2.1 (Event.sale 2 "001")
      initMachines (by decide)
  · exact mutation_subscribers_single_kind.2.2.2.2.1 1 "999" initMachines
      (by decide)
  · exact mutation_subscribers_single_kind.2.2.2.2.2.1 1 "999" initMachines
      (by decide)

/-- C8 counterexample: the Machine constructor takes only the id and fixes
the starting stock level at 10, so no machine carrying starting stock
level 5 (for instance with id 001) can be constructed, refuting the claim
that the collaborator supplies the starting stock level at the
construction boundary. -/
theorem machine_construction_counterexample :
    ¬∃ i : String, Machine.new i = { id := "001", stockLevel := 5 } := by
  intro hex
  obtain ⟨i, h⟩ := hex
  have h₂ := congrArg Machine.stockLevel h
  simp [Machine.new] at h₂

/-- C8 amended: at the construction boundary the external collaborator
supplies only each machine's starting id; for every chosen id, the
constructed machine carries exactly that id and the fixed starting stock
level 10 (the field initializer), before any event is published. -/
theorem machine_construction_id_only (i : String) :
    (Machine.new i).id = i ∧ (Machine.new i).stockLevel = 10 :=
  ⟨rfl, rfl⟩

/-- C9: every top-level publish of the wired program terminates.  The
threshold watcher publishes at most one cascade event per handled event,
the alert logger publishes nothing, low-stock and stock-ok events are
routed only to the alert logger, and a top-level publish against the idle
wired dispatcher empties the queue within fuel 2 (cascade depth at most
one) and returns with the draining flag cleared. -/
theorem wired_publish_terminates (e : Event) (env : SimEnv) :
    (warningHandle defaultThreshold e env.machines env.below).2.length
      ≤ 1 ∧
    (wiredSem SubId.alertLogger e env).published = [] ∧
    mapGet wiredTable "low-stock" = some [SubId.alertLogger] ∧
    mapGet wiredTable "stock-ok" = some [SubId.alertLogger] ∧
    (publish wiredSem 2 e (idleState env)).1.queue = [] ∧
    (publish wiredSem 2 e (idleState env)).1.processing = false := by
  refine ⟨?_, rfl, wiredTable_get.2.2.1, wiredTable_get.2.2.2, ?_, ?_⟩
  · rcases warningHandle_pub_cases defaultThreshold e env.machines env.below
      with hc | ⟨mid, hc⟩ | ⟨mid, hc⟩ <;> simp [hc]
  · cases e with
    | sale q mid => exact (publish_sale_wired q mid env).1
    | refill q mid => exact (publish_refill_wired q mid env).1
    | lowStock mid => exact (publish_lowStock_wired mid env).1
    | stockOk mid => exact (publish_stockOk_wired mid env).1
  · cases e with
    | sale q mid => exact (publish_sale_wired q mid env).2.1
    | refill q mid => exact (publish_refill_wired q mid env).2.1
    | lowStock mid => exact (publish_lowStock_wired mid env).2.1
    | stockOk mid => exact (publish_stockOk_wired mid env).2.1

/-- C10: stock is never clamped at zero.  For a Sale event naming a known
machine, the sale subscriber leaves the machine at exactly its previous
stock minus the sold quantity, and the machine still holds exactly that
value after the wired program's whole publish (dispatch plus cascade) has
finished — so an oversell drives the stock negative and nothing restores
it. -/
theorem sale_unclamped (q : Int) (mid : String) (m : Machine)
    (env : SimEnv) (hfind : findMachine env.machines mid = some m) :
    findMachine (saleHandle (Event.sale q mid) env.machines) mid
      = some { m with stockLevel := m.stockLevel - q } ∧
    findMachine
        (publish wiredSem 2 (Event.sale q mid) (idleState env)).1.env.machines
        mid
      = some { m with stockLevel := m.stockLevel - q } := by
  have h₁ := saleHandle_found q mid env.machines m hfind
  refine ⟨h₁, ?_⟩
  rw [(publish_sale_wired q mid env).2.2]
  exact h₁

theorem sale_unclamped_witness :
    findMachine
        (publish wiredSem 2 (Event.sale 15 "001")
          (idleState initState.env)).1.env.machines "001"
      = some { id := "001", stockLevel := (10 : Int) - 15 } ∧
    ((10 : Int) - 15 < 0) := by
  constructor
  · exact (sale_unclamped 15 "001" (Machine.new "001") initState.env
      (by decide)).2
  · decide

end PubSub
